import Mathlib

/-!
Shallow embedding of the kernel-sync library (DeathWish5/kernel-sync).

The embedding covers:
* the three-tier semaphore `RwdSemaphore` (src/future/rwd_semaphore.rs):
  the permit-word operations `try_acquire_read/write/disk`,
  `release_read/write/disk`, the CAS upgrade/downgrade transitions,
  the two-phase `read_upgrade`, the waiter-queue wake policy
  (`wake_next`, `wake_reader`) and the `poll_acquire` loop;
* the two-tier semaphore `RwSemaphore` (src/future/rw_semaphore.rs);
* the dual-channel lock `MCSLock` (src/spinlock/mcslock.rs).

Machine integers: the permit word is an `AtomicUsize`.  Reader steps are
counted in the bits above bit 1, one step per outstanding read guard; a
read guard is a live object, so the number of simultaneously outstanding
steps is bounded far below 2 to the 62 and the additions cannot wrap.
The word is therefore modelled as `Nat`.

Interrupt nesting: the `NestStrategy` trait (src/nest/mod.rs) exposes
`push_off` and `pop_off`.  Following sections 4.5 of the specification,
a `push_off` call raises the nesting depth by one and a `pop_off` call
lowers it by one; the operations below record how many calls of each
kind they perform.
-/

deriving instance DecidableEq for Except

namespace KernelSync

/-! ### Bit-arithmetic helpers for the permit word -/

/-- a reader step (bits at and above 2) plus a low tier pattern below 4:
masking with 3 recovers the low pattern. -/
theorem land_three_of_lt (r t : Nat) (ht : t < 4) : (4 * r + t) &&& 3 = t := by
  have h3 : (3 : Nat) = 2 ^ 2 - 1 := by norm_num
  rw [h3, Nat.and_pow_two_sub_one_eq_mod]
  omega

/-- a bitwise or of a reader-step multiple with a low tier pattern is plain
addition, because the low two bits of the multiple are clear. -/
theorem lor_of_lt (r t : Nat) (ht : t < 4) : 4 * r ||| t = 4 * r + t := by
  have h4 : 4 * r = 2 ^ 2 * r := by ring
  rw [h4, ← Nat.mul_add_lt_is_or (by omega : t < 2 ^ 2) r]

/-- masking with a submask of 3 factors through masking with 3. -/
theorem land_two_of_lt (r t : Nat) (ht : t < 4) : (4 * r + t) &&& 2 = t &&& 2 := by
  have h := land_three_of_lt r t ht
  have h32 : (3 : Nat) &&& 2 = 2 := by decide
  conv_lhs => rw [← h32]
  rw [← Nat.land_assoc, h]

/-- masking with bit 0 factors through masking with 3. -/
theorem land_one_of_lt (r t : Nat) (ht : t < 4) : (4 * r + t) &&& 1 = t &&& 1 := by
  have h := land_three_of_lt r t ht
  have h31 : (3 : Nat) &&& 1 = 1 := by decide
  conv_lhs => rw [← h31]
  rw [← Nat.land_assoc, h]

namespace Rwd

/-! ### Three-tier semaphore: permit-word operations
(src/future/rwd_semaphore.rs) -/

/-- a reader step in the permit word: `READER: usize = 1 << 2`. -/
def READER : Nat := 4

/-- the writer bit: `WRITER: usize = 1 << 1`. -/
def WRITER : Nat := 2

/-- the disk bit: `DISK: usize = 1`. -/
def DISK : Nat := 1

/-- the tier a waiter requests (`enum AcquireType`). -/
inductive AcquireType where
  | Read
  | Write
  | Disk
deriving DecidableEq

/-- outcome of one `try_acquire_*` call: the `AcquireResult`
(`Err` carries the observed permit word), the permit word after the call,
and the number of `push_off` and `pop_off` calls performed. -/
structure OpOut where
  res : Except Nat Unit
  permit : Nat
  pushes : Nat
  pops : Nat
deriving DecidableEq

/-- `RwdSemaphore::try_acquire_read`: `push_off`, then `fetch_add(READER)`;
if the prior word had the disk or writer bit set, `fetch_sub(READER)`,
`pop_off` and fail with the prior word, else succeed. -/
def try_acquire_read (p : Nat) : OpOut :=
  let value := p
  if value &&& (DISK ||| WRITER) ≠ 0 then
    { res := .error value, permit := (p + READER) - READER, pushes := 1, pops := 1 }
  else
    { res := .ok (), permit := p + READER, pushes := 1, pops := 0 }

/-- `RwdSemaphore::try_acquire_write`: `push_off`, then
`compare_exchange(0, WRITER)`; on CAS failure `pop_off` and fail with the
current word. -/
def try_acquire_write (p : Nat) : OpOut :=
  if p = 0 then
    { res := .ok (), permit := WRITER, pushes := 1, pops := 0 }
  else
    { res := .error p, permit := p, pushes := 1, pops := 1 }

/-- `RwdSemaphore::try_acquire_disk`: `push_off`, then
`compare_exchange(0, DISK)`; on CAS failure `pop_off` and fail with the
current word. -/
def try_acquire_disk (p : Nat) : OpOut :=
  if p = 0 then
    { res := .ok (), permit := DISK, pushes := 1, pops := 0 }
  else
    { res := .error p, permit := p, pushes := 1, pops := 1 }

/-- outcome of one `release_*` call: the permit word after the call,
whether the wake policy (`wake_next`) was invoked, and the number of
`pop_off` calls performed. -/
structure RelOut where
  permit : Nat
  wake : Bool
  pops : Nat
deriving DecidableEq

/-- `RwdSemaphore::release_read`: `fetch_sub(READER)` under the queue lock;
`wake_next` runs exactly when the prior word was one bare reader step;
then `pop_off`. -/
def release_read (p : Nat) : RelOut :=
  let old := p
  { permit := p - READER, wake := old = READER, pops := 1 }

/-- `RwdSemaphore::release_write`: `fetch_and(!WRITER)` under the queue
lock, then `wake_next` unconditionally, then `pop_off`.  Clearing bit 1
of a word is subtracting the masked bit. -/
def release_write (p : Nat) : RelOut :=
  { permit := p - (p &&& WRITER), wake := true, pops := 1 }

/-- `RwdSemaphore::release_disk`: `fetch_and(!DISK)` under the queue lock,
then `wake_next` unconditionally, then `pop_off`. -/
def release_disk (p : Nat) : RelOut :=
  { permit := p - (p &&& DISK), wake := true, pops := 1 }

/-- `RwdSemaphore::try_downgrade_read`: `compare_exchange(old, READER)`;
on success the batched reader wake (`wake_reader`) runs.  Returns the
`AcquireResult` and the permit word after the call. -/
def try_downgrade_read (old p : Nat) : Except Nat Unit × Nat :=
  if p = old then (.ok (), READER) else (.error p, p)

/-- `RwdSemaphore::try_downgrade_write`: `compare_exchange(old, WRITER)`. -/
def try_downgrade_write (old p : Nat) : Except Nat Unit × Nat :=
  if p = old then (.ok (), WRITER) else (.error p, p)

/-- `RwdSemaphore::try_upgrade_disk`: `compare_exchange(old, DISK)`. -/
def try_upgrade_disk (old p : Nat) : Except Nat Unit × Nat :=
  if p = old then (.ok (), DISK) else (.error p, p)

/-- `RwdSemaphore::try_upgrade_write`: `compare_exchange(old, WRITER)`. -/
def try_upgrade_write (old p : Nat) : Except Nat Unit × Nat :=
  if p = old then (.ok (), WRITER) else (.error p, p)

/-- first phase of `RwdSemaphore::read_upgrade`: the `fetch_update` that
sets the target bit while the writer and disk bits are clear; on failure
it returns the conflicting word and changes nothing. -/
def read_upgrade_reserve (new p : Nat) : Except Nat Nat :=
  if p &&& (WRITER ||| DISK) = 0 then .ok (p ||| new) else .error p

/-- second phase of `RwdSemaphore::read_upgrade`: one iteration of the
spin loop, the `compare_exchange(READER | new, new)`; `none` means the
CAS failed and the loop spins again. -/
def read_upgrade_commit (new p : Nat) : Option Nat :=
  if p = READER ||| new then some new else none

/-! ### Three-tier semaphore: waiter queue, wake policy, poll loop -/

/-- a queued waiter: the tier it requests and its already-enqueued flag
(the `waker` handle is irrelevant to the queue transitions modelled
here). -/
structure Waiter where
  req : AcquireType
  queued : Bool
deriving DecidableEq

/-- the body of the `retain` call in `RwdSemaphore::wake_next` and
`RwdSemaphore::wake_reader`: scan the queue in order, wake and drop every
reader waiter, keep every other waiter.  Returns the woken waiters in
wake order and the retained queue in order. -/
def retain_wake : List Waiter → List Waiter × List Waiter
  | [] => ([], [])
  | w :: rest =>
    let (wk, kept) := retain_wake rest
    if w.req = AcquireType.Read then (w :: wk, kept) else (wk, w :: kept)

/-- `RwdSemaphore::wake_next`: if the queue is nonempty, pop the head and
wake it; if the head requested the read tier, additionally run the
`retain` scan over the remainder.  Returns the woken waiters in wake
order and the remaining queue. -/
def wake_next (q : List Waiter) : List Waiter × List Waiter :=
  match q with
  | [] => ([], [])
  | head :: rest =>
    if head.req = AcquireType.Read then
      let (wk, kept) := retain_wake rest
      (head :: wk, kept)
    else
      ([head], rest)

/-- `RwdSemaphore::wake_reader`: the `retain` scan over the whole queue,
run by a successful `try_downgrade_read`. -/
def wake_reader (q : List Waiter) : List Waiter × List Waiter :=
  retain_wake q

/-- the `match req` dispatch inside `RwdSemaphore::poll_acquire`. -/
def try_acquire_req (req : AcquireType) (p : Nat) : OpOut :=
  match req with
  | .Read => try_acquire_read p
  | .Write => try_acquire_write p
  | .Disk => try_acquire_disk p

/-- the break condition of the loop in `RwdSemaphore::poll_acquire`:
`res.is_ok() || Err(DISK) == res`. -/
def poll_break (res : Except Nat Unit) : Bool :=
  match res with
  | .ok _ => true
  | .error e => decide (e = DISK)

/-- the loop in `RwdSemaphore::poll_acquire`, run with the queue lock
held: re-attempt the tiered try-acquire until the break condition holds,
spinning otherwise.  `fuel` bounds the number of iterations; the result
is the number of attempts actually made and, when the loop broke within
the bound, the final `AcquireResult` together with the permit word after
it.  A failed attempt leaves the permit word unchanged, and no other
task can change it while this loop spins (every `release_*` first takes
the same queue lock), so the permit fed to the next iteration is the
output of the previous one. -/
def poll_loop (req : AcquireType) (p : Nat) : Nat → Nat × Option (Except Nat Unit × Nat)
  | 0 => (0, none)
  | fuel + 1 =>
    let o := try_acquire_req req p
    if poll_break o.res then
      (1, some (o.res, o.permit))
    else
      let (n, r) := poll_loop req o.permit fuel
      (n + 1, r)

/-- `RwdSemaphore::poll_acquire` after the loop: when the loop broke with
a failure, enqueue the waiter unless its already-enqueued flag was set
(`queued.compare_exchange(false, true)`).  Returns the result, the new
permit word, the updated waiter and the updated queue; `none` means the
loop never broke within `fuel` iterations. -/
def poll_acquire (fuel : Nat) (node : Waiter) (p : Nat) (q : List Waiter) :
    Option (Except Nat Unit × Nat × Waiter × List Waiter) :=
  match poll_loop node.req p fuel with
  | (_, none) => none
  | (_, some (res, p1)) =>
    if ¬ res.isOk ∧ node.queued = false then
      let node1 : Waiter := { node with queued := true }
      some (res, p1, node1, q ++ [node1])
    else
      some (res, p1, node, q)

/-- the code of `RwdSemaphore::reader_count`. -/
def reader_count (p : Nat) : Nat := p / READER

/-- the code of `RwdSemaphore::writer_count`. -/
def writer_count (p : Nat) : Nat := (p &&& WRITER) / WRITER

/-- the code of `RwdSemaphore::disk_count`. -/
def disk_count (p : Nat) : Nat := (p &&& DISK) / DISK
/-! ### Three-tier semaphore: evaluation lemmas for the operations -/

theorem tar_isOk (p : Nat) : (try_acquire_read p).res.isOk = decide (p &&& 3 = 0) := by
  have h3 : (DISK ||| WRITER : Nat) = 3 := by decide
  rw [try_acquire_read, h3]
  by_cases h : p &&& 3 = 0
  · simp [h, Except.isOk, Except.toBool]
  · simp [h, Except.isOk, Except.toBool]

theorem tar_permit (p : Nat) :
    (try_acquire_read p).permit = if p &&& 3 = 0 then p + 4 else p := by
  have h3 : (DISK ||| WRITER : Nat) = 3 := by decide
  rw [try_acquire_read, h3]
  by_cases h : p &&& 3 = 0
  · simp [h, READER]
  · simp [h, READER]

theorem tar_res_fail (p : Nat) (h : ¬ p &&& 3 = 0) :
    (try_acquire_read p).res = .error p := by
  have h3 : (DISK ||| WRITER : Nat) = 3 := by decide
  rw [try_acquire_read, h3]
  simp [h]

theorem taw_isOk (p : Nat) : (try_acquire_write p).res.isOk = decide (p = 0) := by
  rw [try_acquire_write]
  by_cases h : p = 0
  · simp [h, Except.isOk, Except.toBool]
  · simp [h, Except.isOk, Except.toBool]

theorem taw_permit (p : Nat) :
    (try_acquire_write p).permit = if p = 0 then 2 else p := by
  rw [try_acquire_write]
  by_cases h : p = 0
  · simp [h, WRITER]
  · simp [h]

theorem tad_isOk (p : Nat) : (try_acquire_disk p).res.isOk = decide (p = 0) := by
  rw [try_acquire_disk]
  by_cases h : p = 0
  · simp [h, Except.isOk, Except.toBool]
  · simp [h, Except.isOk, Except.toBool]

theorem tad_permit (p : Nat) :
    (try_acquire_disk p).permit = if p = 0 then 1 else p := by
  rw [try_acquire_disk]
  by_cases h : p = 0
  · simp [h, DISK]
  · simp [h]

theorem rel_read_permit (p : Nat) : (release_read p).permit = p - 4 := rfl

theorem rel_read_wake (p : Nat) : (release_read p).wake = decide (p = 4) := by
  rw [release_read]
  by_cases h : p = 4
  · simp [h, READER]
  · simp [h, READER]

theorem rel_write_permit (p : Nat) : (release_write p).permit = p - (p &&& 2) := rfl

theorem rel_disk_permit (p : Nat) : (release_disk p).permit = p - (p &&& 1) := rfl

theorem tdrW_isOk (p : Nat) :
    (try_downgrade_read WRITER p).1.isOk = decide (p = 2) := by
  rw [try_downgrade_read]
  by_cases h : p = (2 : Nat)
  · simp [h, WRITER, Except.isOk, Except.toBool]
  · simp [h, WRITER, Except.isOk, Except.toBool]

theorem tdrW_permit (p : Nat) :
    (try_downgrade_read WRITER p).2 = if p = 2 then 4 else p := by
  rw [try_downgrade_read]
  by_cases h : p = (2 : Nat)
  · simp [h, WRITER, READER]
  · simp [h, WRITER]

theorem tdrD_isOk (p : Nat) :
    (try_downgrade_read DISK p).1.isOk = decide (p = 1) := by
  rw [try_downgrade_read]
  by_cases h : p = (1 : Nat)
  · simp [h, DISK, Except.isOk, Except.toBool]
  · simp [h, DISK, Except.isOk, Except.toBool]

theorem tdrD_permit (p : Nat) :
    (try_downgrade_read DISK p).2 = if p = 1 then 4 else p := by
  rw [try_downgrade_read]
  by_cases h : p = (1 : Nat)
  · simp [h, DISK, READER]
  · simp [h, DISK]

theorem tdwD_isOk (p : Nat) :
    (try_downgrade_write DISK p).1.isOk = decide (p = 1) := by
  rw [try_downgrade_write]
  by_cases h : p = (1 : Nat)
  · simp [h, DISK, Except.isOk, Except.toBool]
  · simp [h, DISK, Except.isOk, Except.toBool]

theorem tdwD_permit (p : Nat) :
    (try_downgrade_write DISK p).2 = if p = 1 then 2 else p := by
  rw [try_downgrade_write]
  by_cases h : p = (1 : Nat)
  · simp [h, DISK, WRITER]
  · simp [h, DISK]

theorem tudW_isOk (p : Nat) :
    (try_upgrade_disk WRITER p).1.isOk = decide (p = 2) := by
  rw [try_upgrade_disk]
  by_cases h : p = (2 : Nat)
  · simp [h, WRITER, Except.isOk, Except.toBool]
  · simp [h, WRITER, Except.isOk, Except.toBool]

theorem tudW_permit (p : Nat) :
    (try_upgrade_disk WRITER p).2 = if p = 2 then 1 else p := by
  rw [try_upgrade_disk]
  by_cases h : p = (2 : Nat)
  · simp [h, WRITER, DISK]
  · simp [h, WRITER]

theorem tudR_isOk (p : Nat) :
    (try_upgrade_disk READER p).1.isOk = decide (p = 4) := by
  rw [try_upgrade_disk]
  by_cases h : p = (4 : Nat)
  · simp [h, READER, Except.isOk, Except.toBool]
  · simp [h, READER, Except.isOk, Except.toBool]

theorem tudR_permit (p : Nat) :
    (try_upgrade_disk READER p).2 = if p = 4 then 1 else p := by
  rw [try_upgrade_disk]
  by_cases h : p = (4 : Nat)
  · simp [h, READER, DISK]
  · simp [h, READER]

theorem tuwR_isOk (p : Nat) :
    (try_upgrade_write READER p).1.isOk = decide (p = 4) := by
  rw [try_upgrade_write]
  by_cases h : p = (4 : Nat)
  · simp [h, READER, Except.isOk, Except.toBool]
  · simp [h, READER, Except.isOk, Except.toBool]

theorem tuwR_permit (p : Nat) :
    (try_upgrade_write READER p).2 = if p = 4 then 2 else p := by
  rw [try_upgrade_write]
  by_cases h : p = (4 : Nat)
  · simp [h, READER, WRITER]
  · simp [h, READER]

theorem rur_eq (t p : Nat) :
    read_upgrade_reserve t p =
      if p &&& 3 = 0 then Except.ok (p ||| t) else Except.error p := by
  have h3 : (WRITER ||| DISK : Nat) = 3 := by decide
  rw [read_upgrade_reserve, h3]

theorem ruc_eq (t p : Nat) :
    read_upgrade_commit t p = if p = 4 ||| t then some t else none := by
  rw [read_upgrade_commit, READER]

/-! ### Three-tier semaphore: guard-disciplined transition system

The permit word together with ghost bookkeeping of the outstanding
guards: `readers` counts the outstanding read guards not currently
converted by a `read_upgrade`, `writer` and `disk` record an outstanding
write or disk guard, and `upg` records a `read_upgrade` whose reserve
phase has run but whose commit CAS has not yet succeeded, together with
its target bit.  Transitions fire the permit-word operations above; the
ghost preconditions express exactly the discipline the guard types
enforce in src/future/future_rwdlock.rs: `release_X`, the downgrades and
the upgrades are only ever invoked by the holder of an X guard. -/
structure St where
  permit : Nat
  readers : Nat
  writer : Bool
  disk : Bool
  upg : Option Nat
deriving DecidableEq

/-- the all-clear initial state (`RwdSemaphore::new`). -/
def init : St := { permit := 0, readers := 0, writer := false, disk := false, upg := none }

/-- one atomic step of the three-tier semaphore: every operation of the
interface, in both its successful and its failed form; the two-phase
`read_upgrade` contributes one step for its reserve `fetch_update` and
one for its committing CAS, since other holders can release in
between. -/
inductive Step : St → St → Prop where
  | acqReadOk (s : St) :
      (try_acquire_read s.permit).res.isOk = true →
      Step s { s with permit := (try_acquire_read s.permit).permit, readers := s.readers + 1 }
  | acqReadFail (s : St) :
      (try_acquire_read s.permit).res.isOk = false →
      Step s { s with permit := (try_acquire_read s.permit).permit }
  | acqWriteOk (s : St) :
      (try_acquire_write s.permit).res.isOk = true →
      Step s { s with permit := (try_acquire_write s.permit).permit, writer := true }
  | acqWriteFail (s : St) :
      (try_acquire_write s.permit).res.isOk = false →
      Step s { s with permit := (try_acquire_write s.permit).permit }
  | acqDiskOk (s : St) :
      (try_acquire_disk s.permit).res.isOk = true →
      Step s { s with permit := (try_acquire_disk s.permit).permit, disk := true }
  | acqDiskFail (s : St) :
      (try_acquire_disk s.permit).res.isOk = false →
      Step s { s with permit := (try_acquire_disk s.permit).permit }
  | relRead (s : St) :
      1 ≤ s.readers →
      Step s { s with permit := (release_read s.permit).permit, readers := s.readers - 1 }
  | relWrite (s : St) :
      s.writer = true →
      Step s { s with permit := (release_write s.permit).permit, writer := false }
  | relDisk (s : St) :
      s.disk = true →
      Step s { s with permit := (release_disk s.permit).permit, disk := false }
  | dgReadFromWriteOk (s : St) :
      s.writer = true → (try_downgrade_read WRITER s.permit).1.isOk = true →
      Step s { s with permit := (try_downgrade_read WRITER s.permit).2,
                      readers := s.readers + 1, writer := false }
  | dgReadFromWriteFail (s : St) :
      s.writer = true → (try_downgrade_read WRITER s.permit).1.isOk = false →
      Step s { s with permit := (try_downgrade_read WRITER s.permit).2 }
  | dgReadFromDiskOk (s : St) :
      s.disk = true → (try_downgrade_read DISK s.permit).1.isOk = true →
      Step s { s with permit := (try_downgrade_read DISK s.permit).2,
                      readers := s.readers + 1, disk := false }
  | dgReadFromDiskFail (s : St) :
      s.disk = true → (try_downgrade_read DISK s.permit).1.isOk = false →
      Step s { s with permit := (try_downgrade_read DISK s.permit).2 }
  | dgWriteFromDiskOk (s : St) :
      s.disk = true → (try_downgrade_write DISK s.permit).1.isOk = true →
      Step s { s with permit := (try_downgrade_write DISK s.permit).2,
                      writer := true, disk := false }
  | dgWriteFromDiskFail (s : St) :
      s.disk = true → (try_downgrade_write DISK s.permit).1.isOk = false →
      Step s { s with permit := (try_downgrade_write DISK s.permit).2 }
  | upDiskFromWriteOk (s : St) :
      s.writer = true → (try_upgrade_disk WRITER s.permit).1.isOk = true →
      Step s { s with permit := (try_upgrade_disk WRITER s.permit).2,
                      writer := false, disk := true }
  | upDiskFromWriteFail (s : St) :
      s.writer = true → (try_upgrade_disk WRITER s.permit).1.isOk = false →
      Step s { s with permit := (try_upgrade_disk WRITER s.permit).2 }
  | upWriteFromReadOk (s : St) :
      1 ≤ s.readers → (try_upgrade_write READER s.permit).1.isOk = true →
      Step s { s with permit := (try_upgrade_write READER s.permit).2,
                      readers := s.readers - 1, writer := true }
  | upWriteFromReadFail (s : St) :
      1 ≤ s.readers → (try_upgrade_write READER s.permit).1.isOk = false →
      Step s { s with permit := (try_upgrade_write READER s.permit).2 }
  | upDiskFromReadOk (s : St) :
      1 ≤ s.readers → (try_upgrade_disk READER s.permit).1.isOk = true →
      Step s { s with permit := (try_upgrade_disk READER s.permit).2,
                      readers := s.readers - 1, disk := true }
  | upDiskFromReadFail (s : St) :
      1 ≤ s.readers → (try_upgrade_disk READER s.permit).1.isOk = false →
      Step s { s with permit := (try_upgrade_disk READER s.permit).2 }
  | ruReserveOk (s : St) (t p1 : Nat) :
      (t = WRITER ∨ t = DISK) → 1 ≤ s.readers →
      read_upgrade_reserve t s.permit = .ok p1 →
      Step s { s with permit := p1, readers := s.readers - 1, upg := some t }
  | ruReserveFail (s : St) (t : Nat) :
      (t = WRITER ∨ t = DISK) → 1 ≤ s.readers →
      (read_upgrade_reserve t s.permit).isOk = false →
      Step s s
  | ruCommit (s : St) (t p1 : Nat) :
      s.upg = some t →
      read_upgrade_commit t s.permit = some p1 →
      Step s { s with permit := p1, upg := none,
                      writer := decide (t = WRITER), disk := decide (t = DISK) }

/-- the states reachable from the all-clear word by any sequence of the
guard-disciplined operations. -/
def Reachable (s : St) : Prop := Relation.ReflTransGen Step init s

/-- the inductive invariant tying the permit word to the outstanding
guards: steady reader sharing, a sole writer, a sole disk holder, or a
reserved read-based upgrade whose target bit sits below the remaining
reader steps. -/
def Inv (s : St) : Prop :=
  (s.upg = none ∧ s.writer = false ∧ s.disk = false ∧ s.permit = 4 * s.readers)
  ∨ (s.upg = none ∧ s.writer = true ∧ s.disk = false ∧ s.readers = 0 ∧ s.permit = 2)
  ∨ (s.upg = none ∧ s.writer = false ∧ s.disk = true ∧ s.readers = 0 ∧ s.permit = 1)
  ∨ (∃ t, s.upg = some t ∧ (t = 2 ∨ t = 1) ∧ s.writer = false ∧ s.disk = false
        ∧ s.permit = 4 * (s.readers + 1) + t)

theorem inv_init : Inv init := by
  left
  simp [Inv, init]

theorem inv_step {s s1 : St} (hInv : Inv s) (hStep : Step s s1) : Inv s1 := by
  cases hStep with
  | acqReadOk h =>
    rw [tar_isOk, decide_eq_true_eq] at h
    have hp4 : (try_acquire_read s.permit).permit = s.permit + 4 := by
      rw [tar_permit, if_pos h]
    rcases hInv with ⟨hu, hw, hd, hp⟩ | ⟨hu, hw, hd, hr, hp⟩ | ⟨hu, hw, hd, hr, hp⟩
      | ⟨t, hu, ht, hw, hd, hp⟩
    · left
      refine ⟨hu, hw, hd, ?_⟩
      show (try_acquire_read s.permit).permit = 4 * (s.readers + 1)
      rw [hp4, hp]
      ring
    · exact absurd h (by rw [hp]; decide)
    · exact absurd h (by rw [hp]; decide)
    · rw [hp, land_three_of_lt _ t (by omega)] at h
      omega
  | acqReadFail h =>
    rw [tar_isOk, decide_eq_false_iff_not] at h
    have hpp : (try_acquire_read s.permit).permit = s.permit := by
      rw [tar_permit, if_neg h]
    have hs : ({ s with permit := (try_acquire_read s.permit).permit } : St) = s := by
      rw [hpp]
    rw [hs]
    exact hInv
  | acqWriteOk h =>
    rw [taw_isOk, decide_eq_true_eq] at h
    have hp2 : (try_acquire_write s.permit).permit = 2 := by
      rw [taw_permit, if_pos h]
    rcases hInv with ⟨hu, hw, hd, hp⟩ | ⟨hu, hw, hd, hr, hp⟩ | ⟨hu, hw, hd, hr, hp⟩
      | ⟨t, hu, ht, hw, hd, hp⟩
    · right; left
      exact ⟨hu, rfl, hd, by show s.readers = 0; omega, hp2⟩
    · omega
    · omega
    · omega
  | acqWriteFail h =>
    rw [taw_isOk, decide_eq_false_iff_not] at h
    have hpp : (try_acquire_write s.permit).permit = s.permit := by
      rw [taw_permit, if_neg h]
    have hs : ({ s with permit := (try_acquire_write s.permit).permit } : St) = s := by
      rw [hpp]
    rw [hs]
    exact hInv
  | acqDiskOk h =>
    rw [tad_isOk, decide_eq_true_eq] at h
    have hp1 : (try_acquire_disk s.permit).permit = 1 := by
      rw [tad_permit, if_pos h]
    rcases hInv with ⟨hu, hw, hd, hp⟩ | ⟨hu, hw, hd, hr, hp⟩ | ⟨hu, hw, hd, hr, hp⟩
      | ⟨t, hu, ht, hw, hd, hp⟩
    · right; right; left
      exact ⟨hu, hw, rfl, by show s.readers = 0; omega, hp1⟩
    · omega
    · omega
    · omega
  | acqDiskFail h =>
    rw [tad_isOk, decide_eq_false_iff_not] at h
    have hpp : (try_acquire_disk s.permit).permit = s.permit := by
      rw [tad_permit, if_neg h]
    have hs : ({ s with permit := (try_acquire_disk s.permit).permit } : St) = s := by
      rw [hpp]
    rw [hs]
    exact hInv
  | relRead h =>
    rcases hInv with ⟨hu, hw, hd, hp⟩ | ⟨hu, hw, hd, hr, hp⟩ | ⟨hu, hw, hd, hr, hp⟩
      | ⟨t, hu, ht, hw, hd, hp⟩
    · left
      refine ⟨hu, hw, hd, ?_⟩
      show (release_read s.permit).permit = 4 * (s.readers - 1)
      rw [rel_read_permit, hp]
      omega
    · omega
    · omega
    · right; right; right
      refine ⟨t, hu, ht, hw, hd, ?_⟩
      show (release_read s.permit).permit = 4 * ((s.readers - 1) + 1) + t
      rw [rel_read_permit, hp]
      omega
  | relWrite h =>
    rcases hInv with ⟨hu, hw, hd, hp⟩ | ⟨hu, hw, hd, hr, hp⟩ | ⟨hu, hw, hd, hr, hp⟩
      | ⟨t, hu, ht, hw, hd, hp⟩
    · simp [hw] at h
    · left
      refine ⟨hu, rfl, hd, ?_⟩
      show (release_write s.permit).permit = 4 * s.readers
      rw [rel_write_permit, hp, hr]
      decide
    · simp [hw] at h
    · simp [hw] at h
  | relDisk h =>
    rcases hInv with ⟨hu, hw, hd, hp⟩ | ⟨hu, hw, hd, hr, hp⟩ | ⟨hu, hw, hd, hr, hp⟩
      | ⟨t, hu, ht, hw, hd, hp⟩
    · simp [hd] at h
    · simp [hd] at h
    · left
      refine ⟨hu, hw, rfl, ?_⟩
      show (release_disk s.permit).permit = 4 * s.readers
      rw [rel_disk_permit, hp, hr]
      decide
    · simp [hd] at h
  | dgReadFromWriteOk h hok =>
    rcases hInv with ⟨hu, hw, hd, hp⟩ | ⟨hu, hw, hd, hr, hp⟩ | ⟨hu, hw, hd, hr, hp⟩
      | ⟨t, hu, ht, hw, hd, hp⟩
    · simp [hw] at h
    · left
      refine ⟨hu, rfl, hd, ?_⟩
      show (try_downgrade_read WRITER s.permit).2 = 4 * (s.readers + 1)
      rw [tdrW_permit, hp, hr]
      decide
    · simp [hw] at h
    · simp [hw] at h
  | dgReadFromWriteFail h hok =>
    rcases hInv with ⟨hu, hw, hd, hp⟩ | ⟨hu, hw, hd, hr, hp⟩ | ⟨hu, hw, hd, hr, hp⟩
      | ⟨t, hu, ht, hw, hd, hp⟩
    · simp [hw] at h
    · rw [tdrW_isOk, hp] at hok
      simp at hok
    · simp [hw] at h
    · simp [hw] at h
  | dgReadFromDiskOk h hok =>
    rcases hInv with ⟨hu, hw, hd, hp⟩ | ⟨hu, hw, hd, hr, hp⟩ | ⟨hu, hw, hd, hr, hp⟩
      | ⟨t, hu, ht, hw, hd, hp⟩
    · simp [hd] at h
    · simp [hd] at h
    · left
      refine ⟨hu, hw, rfl, ?_⟩
      show (try_downgrade_read DISK s.permit).2 = 4 * (s.readers + 1)
      rw [tdrD_permit, hp, hr]
      decide
    · simp [hd] at h
  | dgReadFromDiskFail h hok =>
    rcases hInv with ⟨hu, hw, hd, hp⟩ | ⟨hu, hw, hd, hr, hp⟩ | ⟨hu, hw, hd, hr, hp⟩
      | ⟨t, hu, ht, hw, hd, hp⟩
    · simp [hd] at h
    · simp [hd] at h
    · rw [tdrD_isOk, hp] at hok
      simp at hok
    · simp [hd] at h
  | dgWriteFromDiskOk h hok =>
    rcases hInv with ⟨hu, hw, hd, hp⟩ | ⟨hu, hw, hd, hr, hp⟩ | ⟨hu, hw, hd, hr, hp⟩
      | ⟨t, hu, ht, hw, hd, hp⟩
    · simp [hd] at h
    · simp [hd] at h
    · right; left
      refine ⟨hu, rfl, rfl, hr, ?_⟩
      show (try_downgrade_write DISK s.permit).2 = 2
      rw [tdwD_permit, hp]
      decide
    · simp [hd] at h
  | dgWriteFromDiskFail h hok =>
    rcases hInv with ⟨hu, hw, hd, hp⟩ | ⟨hu, hw, hd, hr, hp⟩ | ⟨hu, hw, hd, hr, hp⟩
      | ⟨t, hu, ht, hw, hd, hp⟩
    · simp [hd] at h
    · simp [hd] at h
    · rw [tdwD_isOk, hp] at hok
      simp at hok
    · simp [hd] at h
  | upDiskFromWriteOk h hok =>
    rcases hInv with ⟨hu, hw, hd, hp⟩ | ⟨hu, hw, hd, hr, hp⟩ | ⟨hu, hw, hd, hr, hp⟩
      | ⟨t, hu, ht, hw, hd, hp⟩
    · simp [hw] at h
    · right; right; left
      refine ⟨hu, rfl, rfl, hr, ?_⟩
      show (try_upgrade_disk WRITER s.permit).2 = 1
      rw [tudW_permit, hp]
      decide
    · simp [hw] at h
    · simp [hw] at h
  | upDiskFromWriteFail h hok =>
    rcases hInv with ⟨hu, hw, hd, hp⟩ | ⟨hu, hw, hd, hr, hp⟩ | ⟨hu, hw, hd, hr, hp⟩
      | ⟨t, hu, ht, hw, hd, hp⟩
    · simp [hw] at h
    · rw [tudW_isOk, hp] at hok
      simp at hok
    · simp [hw] at h
    · simp [hw] at h
  | upWriteFromReadOk h hok =>
    rw [tuwR_isOk, decide_eq_true_eq] at hok
    rcases hInv with ⟨hu, hw, hd, hp⟩ | ⟨hu, hw, hd, hr, hp⟩ | ⟨hu, hw, hd, hr, hp⟩
      | ⟨t, hu, ht, hw, hd, hp⟩
    · right; left
      refine ⟨hu, rfl, hd, by show s.readers - 1 = 0; omega, ?_⟩
      show (try_upgrade_write READER s.permit).2 = 2
      rw [tuwR_permit, if_pos hok]
    · omega
    · omega
    · rcases ht with rfl | rfl <;> omega
  | upWriteFromReadFail h hok =>
    rw [tuwR_isOk, decide_eq_false_iff_not] at hok
    have hpp : (try_upgrade_write READER s.permit).2 = s.permit := by
      rw [tuwR_permit, if_neg hok]
    have hs : ({ s with permit := (try_upgrade_write READER s.permit).2 } : St) = s := by
      rw [hpp]
    rw [hs]
    exact hInv
  | upDiskFromReadOk h hok =>
    rw [tudR_isOk, decide_eq_true_eq] at hok
    rcases hInv with ⟨hu, hw, hd, hp⟩ | ⟨hu, hw, hd, hr, hp⟩ | ⟨hu, hw, hd, hr, hp⟩
      | ⟨t, hu, ht, hw, hd, hp⟩
    · right; right; left
      refine ⟨hu, hw, rfl, by show s.readers - 1 = 0; omega, ?_⟩
      show (try_upgrade_disk READER s.permit).2 = 1
      rw [tudR_permit, if_pos hok]
    · omega
    · omega
    · rcases ht with rfl | rfl <;> omega
  | upDiskFromReadFail h hok =>
    rw [tudR_isOk, decide_eq_false_iff_not] at hok
    have hpp : (try_upgrade_disk READER s.permit).2 = s.permit := by
      rw [tudR_permit, if_neg hok]
    have hs : ({ s with permit := (try_upgrade_disk READER s.permit).2 } : St) = s := by
      rw [hpp]
    rw [hs]
    exact hInv
  | ruReserveOk t p1 ht hr hok =>
    have ht4 : t < 4 := by rcases ht with rfl | rfl <;> decide
    rw [rur_eq] at hok
    rcases hInv with ⟨hu, hw, hd, hp⟩ | ⟨hu, hw, hd, hr9, hp⟩ | ⟨hu, hw, hd, hr9, hp⟩
      | ⟨t9, hu, ht9, hw, hd, hp⟩
    · have hb0 : s.permit &&& 3 = 0 := by
        rw [hp]
        simpa using land_three_of_lt s.readers 0 (by omega)
      rw [if_pos hb0] at hok
      simp only [Except.ok.injEq] at hok
      right; right; right
      refine ⟨t, rfl, by rcases ht with rfl | rfl
                         · left; rfl
                         · right; rfl, hw, hd, ?_⟩
      show p1 = 4 * ((s.readers - 1) + 1) + t
      rw [← hok, hp, lor_of_lt s.readers t ht4]
      omega
    · rw [hp, if_neg (by decide)] at hok
      exact Except.noConfusion hok
    · rw [hp, if_neg (by decide)] at hok
      exact Except.noConfusion hok
    · have hb : s.permit &&& 3 = t9 := by
        rw [hp]
        exact land_three_of_lt _ t9 (by omega)
      have hne : ¬ s.permit &&& 3 = 0 := by
        rw [hb]
        omega
      rw [if_neg hne] at hok
      exact Except.noConfusion hok
  | ruReserveFail t ht hr hok =>
    exact hInv
  | ruCommit t p1 hu hok =>
    rw [ruc_eq] at hok
    rcases hInv with ⟨hu9, hw, hd, hp⟩ | ⟨hu9, hw, hd, hr9, hp⟩ | ⟨hu9, hw, hd, hr9, hp⟩
      | ⟨t9, hu9, ht9, hw, hd, hp⟩
    · rw [hu] at hu9
      exact Option.noConfusion hu9
    · rw [hu] at hu9
      exact Option.noConfusion hu9
    · rw [hu] at hu9
      exact Option.noConfusion hu9
    · rw [hu] at hu9
      injection hu9 with he
      subst he
      have h4t : (4 ||| t : Nat) = 4 + t := by
        have h := lor_of_lt 1 t (by omega)
        simpa using h
      rw [h4t, hp] at hok
      by_cases hb : 4 * (s.readers + 1) + t = 4 + t
      · rw [if_pos hb] at hok
        injection hok with hp1
        rcases ht9 with rfl | rfl
        · right; left
          exact ⟨rfl, rfl, rfl, by
            show s.readers = 0
            omega, by rw [← hp1]⟩
        · right; right; left
          exact ⟨rfl, rfl, rfl, by
            show s.readers = 0
            omega, by rw [← hp1]⟩
      · rw [if_neg hb] at hok
        exact Option.noConfusion hok

/-- every reachable state satisfies the invariant. -/
theorem inv_reachable {s : St} (h : Reachable s) : Inv s := by
  induction h with
  | refl => exact inv_init
  | tail h1 hstep ih => exact inv_step ih hstep
end Rwd

namespace Rw

/-! ### Two-tier semaphore (src/future/rw_semaphore.rs) -/

/-- a reader step in the two-tier permit word: `READER: usize = 1 << 2`. -/
def READER : Nat := 4

/-- the two-tier writer bit: `WRITER: usize = 1`. -/
def WRITER : Nat := 1

/-- the tier a two-tier waiter requests (`enum AcquireType`). -/
inductive AcquireType where
  | Read
  | Write
deriving DecidableEq

/-- outcome of one two-tier `try_acquire_*` call: the `AcquireResult`
(here `Result<(), ()>`, so a failure carries no data), the permit word
after the call, and the `push_off` and `pop_off` call counts. -/
structure OpOut where
  res : Except Unit Unit
  permit : Nat
  pushes : Nat
  pops : Nat
deriving DecidableEq

/-- `RwSemaphore::try_acquire_read`: `push_off`, `fetch_add(READER)`; if
the prior word had the writer bit, `fetch_sub(READER)`, `pop_off` and
fail with the unit error. -/
def try_acquire_read (p : Nat) : OpOut :=
  let value := p
  if value &&& WRITER ≠ 0 then
    { res := .error (), permit := (p + READER) - READER, pushes := 1, pops := 1 }
  else
    { res := .ok (), permit := p + READER, pushes := 1, pops := 0 }

/-- `RwSemaphore::try_acquire_write`: `push_off`, then
`compare_exchange(0, WRITER)`; on CAS failure `pop_off` and fail with the
unit error. -/
def try_acquire_write (p : Nat) : OpOut :=
  if p = 0 then
    { res := .ok (), permit := WRITER, pushes := 1, pops := 0 }
  else
    { res := .error (), permit := p, pushes := 1, pops := 1 }

/-- outcome of a two-tier `release_*` call. -/
structure RelOut where
  permit : Nat
  wake : Bool
  pops : Nat
deriving DecidableEq

/-- `RwSemaphore::release_read`: `fetch_sub(READER)` under the queue
lock; `wake_next` runs exactly when the prior word was one bare reader
step; then `pop_off`. -/
def release_read (p : Nat) : RelOut :=
  let old := p
  { permit := p - READER, wake := old = READER, pops := 1 }

/-- `RwSemaphore::release_write`: `fetch_and(!WRITER)` under the queue
lock, then `wake_next` unconditionally, then `pop_off`. -/
def release_write (p : Nat) : RelOut :=
  { permit := p - (p &&& WRITER), wake := true, pops := 1 }

/-- a queued two-tier waiter. -/
structure Waiter where
  req : AcquireType
  queued : Bool
deriving DecidableEq

/-- the body of the `retain` call in `RwSemaphore::wake_next`: wake and
drop every reader waiter in queue order, keep every other waiter. -/
def retain_wake : List Waiter → List Waiter × List Waiter
  | [] => ([], [])
  | w :: rest =>
    let (wk, kept) := retain_wake rest
    if w.req = AcquireType.Read then (w :: wk, kept) else (wk, w :: kept)

/-- `RwSemaphore::wake_next`: pop and wake the head waiter; if it
requested the read tier, run the `retain` scan over the remainder. -/
def wake_next (q : List Waiter) : List Waiter × List Waiter :=
  match q with
  | [] => ([], [])
  | head :: rest =>
    if head.req = AcquireType.Read then
      let (wk, kept) := retain_wake rest
      (head :: wk, kept)
    else
      ([head], rest)

/-- `RwSemaphore::poll_acquire`: under the queue lock, re-attempt the
tiered try-acquire exactly once; on failure enqueue the waiter unless
its already-enqueued flag was set.  Returns the result, the new permit
word, the updated waiter and the updated queue. -/
def poll_acquire (node : Waiter) (p : Nat) (q : List Waiter) :
    Except Unit Unit × Nat × Waiter × List Waiter :=
  let o := if node.req = AcquireType.Read then try_acquire_read p else try_acquire_write p
  if ¬ o.res.isOk ∧ node.queued = false then
    let node1 : Waiter := { node with queued := true }
    (o.res, o.permit, node1, q ++ [node1])
  else
    (o.res, o.permit, node, q)

end Rw

namespace MCS

/-! ### Dual-channel ownership lock (src/spinlock/mcslock.rs) -/

/-- the execution-context tag selecting a channel (`enum LockChannel`). -/
inductive LockChannel where
  | Normal
  | Interrupt
deriving DecidableEq

/-- the `locked: [AtomicBool; 2]` pair of channel flags. -/
structure LockState where
  normal : Bool
  intr : Bool
deriving DecidableEq

/-- indexing `locked[channel as usize]`. -/
def get (s : LockState) (c : LockChannel) : Bool :=
  match c with
  | .Normal => s.normal
  | .Interrupt => s.intr

/-- storing to `locked[channel as usize]`. -/
def set (s : LockState) (c : LockChannel) (b : Bool) : LockState :=
  match c with
  | .Normal => { s with normal := b }
  | .Interrupt => { s with intr := b }

/-- `MCSLock::try_lock`: `compare_exchange(false, true)` on the selected
channel flag; `some` carries the state after a successful acquire. -/
def try_lock (s : LockState) (c : LockChannel) : Option LockState :=
  if get s c = false then some (set s c true) else none

/-- `MCSLock::lock`: the `compare_exchange_weak` spin loop on the
selected channel flag.  Sequentially the flag cannot change while the
caller spins, so the loop acquires on its first CAS or never returns;
`none` models the second case. -/
def lock (s : LockState) (c : LockChannel) : Option LockState :=
  if get s c = false then some (set s c true) else none

/-- `MCSLockGuard::drop`: store `false` to the guard channel flag. -/
def guard_drop (s : LockState) (c : LockChannel) : LockState :=
  set s c false

/-- `MCSLock::is_locked`: load the selected channel flag. -/
def is_locked (s : LockState) (c : LockChannel) : Bool :=
  get s c

end MCS

namespace Rwd

/-! ### Further evaluation lemmas used by the claim theorems -/

theorem tar_pushes (p : Nat) : (try_acquire_read p).pushes = 1 := by
  rw [try_acquire_read]
  by_cases h : p &&& (DISK ||| WRITER) ≠ 0 <;> simp [h]

theorem tar_pops (p : Nat) :
    (try_acquire_read p).pops = if p &&& 3 = 0 then 0 else 1 := by
  have h3 : (DISK ||| WRITER : Nat) = 3 := by decide
  rw [try_acquire_read, h3]
  by_cases h : p &&& 3 = 0 <;> simp [h]

theorem taw_pushes (p : Nat) : (try_acquire_write p).pushes = 1 := by
  rw [try_acquire_write]
  by_cases h : p = 0 <;> simp [h]

theorem taw_pops (p : Nat) :
    (try_acquire_write p).pops = if p = 0 then 0 else 1 := by
  rw [try_acquire_write]
  by_cases h : p = 0 <;> simp [h]

theorem tad_pushes (p : Nat) : (try_acquire_disk p).pushes = 1 := by
  rw [try_acquire_disk]
  by_cases h : p = 0 <;> simp [h]

theorem tad_pops (p : Nat) :
    (try_acquire_disk p).pops = if p = 0 then 0 else 1 := by
  rw [try_acquire_disk]
  by_cases h : p = 0 <;> simp [h]

theorem reader_count_eq (r t : Nat) (ht : t < 4) : reader_count (4 * r + t) = r := by
  simp only [reader_count, READER]
  omega

theorem writer_count_eq (r t : Nat) (ht : t < 4) :
    writer_count (4 * r + t) = (t &&& 2) / 2 := by
  simp only [writer_count, WRITER]
  rw [land_two_of_lt r t ht]

theorem disk_count_eq (r t : Nat) (ht : t < 4) :
    disk_count (4 * r + t) = t &&& 1 := by
  simp only [disk_count, DISK]
  rw [land_one_of_lt r t ht]
  omega

/-- the `retain` scan keeps exactly the non-reader waiters in order and
wakes exactly the reader waiters in order. -/
theorem retain_wake_eq (t : List Waiter) :
    retain_wake t = (t.filter (fun w => decide (w.req = AcquireType.Read)),
                     t.filter (fun w => decide (¬ w.req = AcquireType.Read))) := by
  induction t with
  | nil => rfl
  | cons w rest ih =>
    rw [retain_wake, ih]
    by_cases h : w.req = AcquireType.Read <;> simp [h, List.filter_cons]

end Rwd

namespace Rw

/-! ### Evaluation lemmas for the two-tier engine -/

theorem rw_tar_res (p : Nat) :
    (try_acquire_read p).res = if p % 2 = 0 then .ok () else .error () := by
  have h1 : (WRITER : Nat) = 1 := rfl
  rw [try_acquire_read, h1]
  by_cases h : p % 2 = 0
  · simp [Nat.and_one_is_mod, h]
  · have h2 : p % 2 = 1 := by omega
    simp [Nat.and_one_is_mod, h2]

theorem rw_tar_permit (p : Nat) :
    (try_acquire_read p).permit = if p % 2 = 0 then p + 4 else p := by
  have h1 : (WRITER : Nat) = 1 := rfl
  rw [try_acquire_read, h1]
  by_cases h : p % 2 = 0
  · simp [Nat.and_one_is_mod, h, READER]
  · have h2 : p % 2 = 1 := by omega
    simp [Nat.and_one_is_mod, h2]

theorem rw_taw_res (p : Nat) :
    (try_acquire_write p).res = if p = 0 then .ok () else .error () := by
  rw [try_acquire_write]
  by_cases h : p = 0 <;> simp [h]

theorem rw_taw_permit (p : Nat) :
    (try_acquire_write p).permit = if p = 0 then 1 else p := by
  rw [try_acquire_write]
  by_cases h : p = 0 <;> simp [h, WRITER]

/-- the two-tier `retain` scan keeps exactly the non-reader waiters in
order and wakes exactly the reader waiters in order. -/
theorem rw_retain_wake_eq (t : List Waiter) :
    retain_wake t = (t.filter (fun w => decide (w.req = AcquireType.Read)),
                     t.filter (fun w => decide (¬ w.req = AcquireType.Read))) := by
  induction t with
  | nil => rfl
  | cons w rest ih =>
    rw [retain_wake, ih]
    by_cases h : w.req = AcquireType.Read <;> simp [h, List.filter_cons]

end Rw

/-! ### Concrete reachable states shared by the claim witnesses -/

theorem reach_read1 :
    Rwd.Reachable { permit := 4, readers := 1, writer := false, disk := false, upg := none } :=
  Relation.ReflTransGen.single (Rwd.Step.acqReadOk Rwd.init (by decide))

theorem reach_read2 :
    Rwd.Reachable { permit := 8, readers := 2, writer := false, disk := false, upg := none } :=
  Relation.ReflTransGen.tail reach_read1
    (Rwd.Step.acqReadOk
      { permit := 4, readers := 1, writer := false, disk := false, upg := none } (by decide))

theorem reach_writer :
    Rwd.Reachable { permit := 2, readers := 0, writer := true, disk := false, upg := none } :=
  Relation.ReflTransGen.single (Rwd.Step.acqWriteOk Rwd.init (by decide))

theorem reach_disk :
    Rwd.Reachable { permit := 1, readers := 0, writer := false, disk := true, upg := none } :=
  Relation.ReflTransGen.single (Rwd.Step.acqDiskOk Rwd.init (by decide))

theorem reach_upg :
    Rwd.Reachable { permit := 6, readers := 0, writer := false, disk := false, upg := some 2 } :=
  Relation.ReflTransGen.tail reach_read1
    (Rwd.Step.ruReserveOk
      { permit := 4, readers := 1, writer := false, disk := false, upg := none }
      2 6 (Or.inl rfl) (by decide) (by decide))

/-! ### Claim theorems -/

/-- C1: in every state reachable by any sequence of the three-tier
operations (successful or failed acquires, releases, upgrades,
downgrades, the two-phase read upgrade), the writer bit and the disk bit
are never both set; and outside a read-based upgrade handoff, neither
bit is set while the reader count of the permit word is nonzero. -/
theorem rwd_permit_tier_exclusion :
    ∀ s : Rwd.St, Rwd.Reachable s →
      (Rwd.writer_count s.permit = 0 ∨ Rwd.disk_count s.permit = 0)
      ∧ (s.upg = none →
          (Rwd.writer_count s.permit ≠ 0 ∨ Rwd.disk_count s.permit ≠ 0) →
          Rwd.reader_count s.permit = 0) := by
  intro s h
  rcases Rwd.inv_reachable h with ⟨hu, hw, hd, hp⟩ | ⟨hu, hw, hd, hr, hp⟩
    | ⟨hu, hw, hd, hr, hp⟩ | ⟨t, hu, ht, hw, hd, hp⟩
  · have hwc : Rwd.writer_count s.permit = 0 := by
      rw [hp]
      simpa using Rwd.writer_count_eq s.readers 0 (by omega)
    have hdc : Rwd.disk_count s.permit = 0 := by
      rw [hp]
      simpa using Rwd.disk_count_eq s.readers 0 (by omega)
    refine ⟨Or.inl hwc, fun _ hbit => ?_⟩
    rcases hbit with hb | hb
    · exact absurd hwc hb
    · exact absurd hdc hb
  · exact ⟨Or.inr (by rw [hp]; decide), fun _ _ => by rw [hp]; decide⟩
  · exact ⟨Or.inl (by rw [hp]; decide), fun _ _ => by rw [hp]; decide⟩
  · constructor
    · rcases ht with rfl | rfl
      · right
        rw [hp, Rwd.disk_count_eq _ 2 (by omega)]
        decide
      · left
        rw [hp, Rwd.writer_count_eq _ 1 (by omega)]
        decide
    · intro hnone
      rw [hu] at hnone
      exact Option.noConfusion hnone

/-- C1 witness: the exclusion instantiated at the reachable sole-writer
state, whose permit word is 2. -/
theorem rwd_permit_tier_exclusion_witness :
    (Rwd.writer_count 2 = 0 ∨ Rwd.disk_count 2 = 0)
    ∧ ((none : Option Nat) = none →
        (Rwd.writer_count 2 ≠ 0 ∨ Rwd.disk_count 2 ≠ 0) →
        Rwd.reader_count 2 = 0) :=
  rwd_permit_tier_exclusion
    { permit := 2, readers := 0, writer := true, disk := false, upg := none } reach_writer

/-- C5: a reachable state with no outstanding holder of any tier has the
all-clear permit word, so every well-bracketed sequence ends all-clear;
and a successful acquire of each tier immediately followed by its
release restores the pre-acquire permit word. -/
theorem rwd_balanced_sequences_all_clear :
    (∀ s : Rwd.St, Rwd.Reachable s →
        s.readers = 0 → s.writer = false → s.disk = false → s.upg = none →
        s.permit = 0)
    ∧ (∀ p, (Rwd.try_acquire_read p).res.isOk = true →
        (Rwd.release_read (Rwd.try_acquire_read p).permit).permit = p)
    ∧ (∀ p, (Rwd.try_acquire_write p).res.isOk = true →
        (Rwd.release_write (Rwd.try_acquire_write p).permit).permit = p)
    ∧ (∀ p, (Rwd.try_acquire_disk p).res.isOk = true →
        (Rwd.release_disk (Rwd.try_acquire_disk p).permit).permit = p) := by
  refine ⟨?_, ?_, ?_, ?_⟩
  · intro s h hr hw hd hu
    rcases Rwd.inv_reachable h with ⟨_, _, _, hp⟩ | ⟨_, hw9, _, _, _⟩
      | ⟨_, _, hd9, _, _⟩ | ⟨t, hu9, _, _, _, _⟩
    · rw [hp, hr]
    · rw [hw] at hw9
      exact Bool.noConfusion hw9
    · rw [hd] at hd9
      exact Bool.noConfusion hd9
    · rw [hu] at hu9
      exact Option.noConfusion hu9
  · intro p h
    rw [Rwd.tar_isOk, decide_eq_true_eq] at h
    rw [Rwd.tar_permit, if_pos h, Rwd.rel_read_permit]
    omega
  · intro p h
    rw [Rwd.taw_isOk, decide_eq_true_eq] at h
    rw [Rwd.taw_permit, if_pos h, Rwd.rel_write_permit, h]
    decide
  · intro p h
    rw [Rwd.tad_isOk, decide_eq_true_eq] at h
    rw [Rwd.tad_permit, if_pos h, Rwd.rel_disk_permit, h]
    decide

/-- C5 witness: the all-clear conclusion at the initial state and the
acquire-release round trips at the all-clear word. -/
theorem rwd_balanced_sequences_all_clear_witness :
    Rwd.init.permit = 0
    ∧ (Rwd.release_read (Rwd.try_acquire_read 0).permit).permit = 0
    ∧ (Rwd.release_write (Rwd.try_acquire_write 0).permit).permit = 0
    ∧ (Rwd.release_disk (Rwd.try_acquire_disk 0).permit).permit = 0 :=
  ⟨rwd_balanced_sequences_all_clear.1 Rwd.init Relation.ReflTransGen.refl rfl rfl rfl rfl,
   rwd_balanced_sequences_all_clear.2.1 0 (by decide),
   rwd_balanced_sequences_all_clear.2.2.1 0 (by decide),
   rwd_balanced_sequences_all_clear.2.2.2 0 (by decide)⟩

/-- C7: in every reachable state, a read release invokes the wake policy
exactly when it drains the permit word to all-clear (equivalently,
outside an upgrade handoff, exactly when the releasing reader is the
last outstanding one), and a write or disk release drains the permit
word to all-clear and invokes the wake policy. -/
theorem release_wake_iff_drained :
    (∀ s : Rwd.St, Rwd.Reachable s → 1 ≤ s.readers →
        (((Rwd.release_read s.permit).wake = true) ↔ (Rwd.release_read s.permit).permit = 0)
        ∧ (s.upg = none →
            (((Rwd.release_read s.permit).wake = true) ↔ s.readers = 1)))
    ∧ (∀ s : Rwd.St, Rwd.Reachable s → s.writer = true →
        (Rwd.release_write s.permit).permit = 0 ∧ (Rwd.release_write s.permit).wake = true)
    ∧ (∀ s : Rwd.St, Rwd.Reachable s → s.disk = true →
        (Rwd.release_disk s.permit).permit = 0 ∧ (Rwd.release_disk s.permit).wake = true) := by
  refine ⟨?_, ?_, ?_⟩
  · intro s h hr
    rcases Rwd.inv_reachable h with ⟨hu, hw, hd, hp⟩ | ⟨hu, hw, hd, hr9, hp⟩
      | ⟨hu, hw, hd, hr9, hp⟩ | ⟨t, hu, ht, hw, hd, hp⟩
    · constructor
      · rw [Rwd.rel_read_wake, Rwd.rel_read_permit, hp]
        simp only [decide_eq_true_eq]
        omega
      · intro _
        rw [Rwd.rel_read_wake, hp]
        simp only [decide_eq_true_eq]
        omega
    · omega
    · omega
    · constructor
      · rw [Rwd.rel_read_wake, Rwd.rel_read_permit, hp]
        simp only [decide_eq_true_eq]
        rcases ht with rfl | rfl <;> (constructor <;> (intro h9; omega))
      · intro hnone
        rw [hu] at hnone
        exact Option.noConfusion hnone
  · intro s h hw
    rcases Rwd.inv_reachable h with ⟨hu, hw9, hd, hp⟩ | ⟨hu, hw9, hd, hr, hp⟩
      | ⟨hu, hw9, hd, hr, hp⟩ | ⟨t, hu, ht, hw9, hd, hp⟩
    · rw [hw] at hw9
      exact Bool.noConfusion hw9
    · exact ⟨by rw [Rwd.rel_write_permit, hp]; decide, rfl⟩
    · rw [hw] at hw9
      exact Bool.noConfusion hw9
    · rw [hw] at hw9
      exact Bool.noConfusion hw9
  · intro s h hd
    rcases Rwd.inv_reachable h with ⟨hu, hw, hd9, hp⟩ | ⟨hu, hw, hd9, hr, hp⟩
      | ⟨hu, hw, hd9, hr, hp⟩ | ⟨t, hu, ht, hw, hd9, hp⟩
    · rw [hd] at hd9
      exact Bool.noConfusion hd9
    · rw [hd] at hd9
      exact Bool.noConfusion hd9
    · exact ⟨by rw [Rwd.rel_disk_permit, hp]; decide, rfl⟩
    · rw [hd] at hd9
      exact Bool.noConfusion hd9

/-- C7 witness: the read-release equivalence at the reachable sole-reader
state (permit word 4) and the write-release drain at the reachable
sole-writer state (permit word 2). -/
theorem release_wake_iff_drained_witness :
    (((Rwd.release_read 4).wake = true) ↔ (Rwd.release_read 4).permit = 0)
    ∧ ((Rwd.release_write 2).permit = 0 ∧ (Rwd.release_write 2).wake = true) :=
  ⟨(release_wake_iff_drained.1
      { permit := 4, readers := 1, writer := false, disk := false, upg := none }
      reach_read1 (by decide)).1,
   release_wake_iff_drained.2.1
      { permit := 2, readers := 0, writer := true, disk := false, upg := none }
      reach_writer rfl⟩

/-- C10: in every reachable state in which a disk guard is outstanding,
the disk tier is the sole occupant of the permit word and both guard
level downgrades succeed; likewise, with a write guard outstanding, the
downgrade to read and the upgrade to disk succeed — so the unwrap calls
in the guard methods cannot panic. -/
theorem downgrade_unwrap_never_fails :
    (∀ s : Rwd.St, Rwd.Reachable s → s.disk = true →
        (Rwd.try_downgrade_read Rwd.DISK s.permit).1.isOk = true
        ∧ (Rwd.try_downgrade_write Rwd.DISK s.permit).1.isOk = true)
    ∧ (∀ s : Rwd.St, Rwd.Reachable s → s.writer = true →
        (Rwd.try_downgrade_read Rwd.WRITER s.permit).1.isOk = true
        ∧ (Rwd.try_upgrade_disk Rwd.WRITER s.permit).1.isOk = true) := by
  constructor
  · intro s h hd
    rcases Rwd.inv_reachable h with ⟨hu, hw, hd9, hp⟩ | ⟨hu, hw, hd9, hr, hp⟩
      | ⟨hu, hw, hd9, hr, hp⟩ | ⟨t, hu, ht, hw, hd9, hp⟩
    · rw [hd] at hd9
      exact Bool.noConfusion hd9
    · rw [hd] at hd9
      exact Bool.noConfusion hd9
    · exact ⟨by rw [Rwd.tdrD_isOk, hp]; decide, by rw [Rwd.tdwD_isOk, hp]; decide⟩
    · rw [hd] at hd9
      exact Bool.noConfusion hd9
  · intro s h hw
    rcases Rwd.inv_reachable h with ⟨hu, hw9, hd, hp⟩ | ⟨hu, hw9, hd, hr, hp⟩
      | ⟨hu, hw9, hd, hr, hp⟩ | ⟨t, hu, ht, hw9, hd, hp⟩
    · rw [hw] at hw9
      exact Bool.noConfusion hw9
    · exact ⟨by rw [Rwd.tdrW_isOk, hp]; decide, by rw [Rwd.tudW_isOk, hp]; decide⟩
    · rw [hw] at hw9
      exact Bool.noConfusion hw9
    · rw [hw] at hw9
      exact Bool.noConfusion hw9

/-- C10 witness: the downgrade and upgrade CAS operations succeed at the
reachable sole-disk state (permit word 1) and the reachable sole-writer
state (permit word 2). -/
theorem downgrade_unwrap_never_fails_witness :
    ((Rwd.try_downgrade_read Rwd.DISK 1).1.isOk = true
      ∧ (Rwd.try_downgrade_write Rwd.DISK 1).1.isOk = true)
    ∧ ((Rwd.try_downgrade_read Rwd.WRITER 2).1.isOk = true
      ∧ (Rwd.try_upgrade_disk Rwd.WRITER 2).1.isOk = true) :=
  ⟨downgrade_unwrap_never_fails.1
      { permit := 1, readers := 0, writer := false, disk := true, upg := none }
      reach_disk rfl,
   downgrade_unwrap_never_fails.2
      { permit := 2, readers := 0, writer := true, disk := false, upg := none }
      reach_writer rfl⟩

/-- C8: per operation, a failing try-acquire performs equally many
push and pop calls of the nesting strategy (net depth zero), a
successful try-acquire performs one more push than pop (net depth one),
each release performs exactly one pop, and hence a successful acquire
followed by its matching release is push/pop balanced overall. -/
theorem nest_depth_balance :
    (∀ p, ((Rwd.try_acquire_read p).res.isOk = false →
            (Rwd.try_acquire_read p).pushes = (Rwd.try_acquire_read p).pops)
        ∧ ((Rwd.try_acquire_read p).res.isOk = true →
            (Rwd.try_acquire_read p).pushes = (Rwd.try_acquire_read p).pops + 1))
    ∧ (∀ p, ((Rwd.try_acquire_write p).res.isOk = false →
            (Rwd.try_acquire_write p).pushes = (Rwd.try_acquire_write p).pops)
        ∧ ((Rwd.try_acquire_write p).res.isOk = true →
            (Rwd.try_acquire_write p).pushes = (Rwd.try_acquire_write p).pops + 1))
    ∧ (∀ p, ((Rwd.try_acquire_disk p).res.isOk = false →
            (Rwd.try_acquire_disk p).pushes = (Rwd.try_acquire_disk p).pops)
        ∧ ((Rwd.try_acquire_disk p).res.isOk = true →
            (Rwd.try_acquire_disk p).pushes = (Rwd.try_acquire_disk p).pops + 1))
    ∧ (∀ p, (Rwd.release_read p).pops = 1 ∧ (Rwd.release_write p).pops = 1
        ∧ (Rwd.release_disk p).pops = 1)
    ∧ (∀ p, (Rwd.try_acquire_read p).res.isOk = true →
        (Rwd.try_acquire_read p).pushes
          = (Rwd.try_acquire_read p).pops
            + (Rwd.release_read (Rwd.try_acquire_read p).permit).pops)
    ∧ (∀ p, (Rwd.try_acquire_write p).res.isOk = true →
        (Rwd.try_acquire_write p).pushes
          = (Rwd.try_acquire_write p).pops
            + (Rwd.release_write (Rwd.try_acquire_write p).permit).pops)
    ∧ (∀ p, (Rwd.try_acquire_disk p).res.isOk = true →
        (Rwd.try_acquire_disk p).pushes
          = (Rwd.try_acquire_disk p).pops
            + (Rwd.release_disk (Rwd.try_acquire_disk p).permit).pops) := by
  refine ⟨?_, ?_, ?_, ?_, ?_, ?_, ?_⟩
  · intro p
    rw [Rwd.tar_isOk, Rwd.tar_pushes, Rwd.tar_pops]
    by_cases h : p &&& 3 = 0 <;> simp [h]
  · intro p
    rw [Rwd.taw_isOk, Rwd.taw_pushes, Rwd.taw_pops]
    by_cases h : p = 0 <;> simp [h]
  · intro p
    rw [Rwd.tad_isOk, Rwd.tad_pushes, Rwd.tad_pops]
    by_cases h : p = 0 <;> simp [h]
  · intro p
    exact ⟨rfl, rfl, rfl⟩
  · intro p h
    rw [Rwd.tar_isOk, decide_eq_true_eq] at h
    rw [Rwd.tar_pushes, Rwd.tar_pops, if_pos h]
    rfl
  · intro p h
    rw [Rwd.taw_isOk, decide_eq_true_eq] at h
    rw [Rwd.taw_pushes, Rwd.taw_pops, if_pos h]
    rfl
  · intro p h
    rw [Rwd.tad_isOk, decide_eq_true_eq] at h
    rw [Rwd.tad_pushes, Rwd.tad_pops, if_pos h]
    rfl

/-- C8 witness: the balance at the all-clear word (successful acquires)
and at the sole-writer word 2 (failing acquires). -/
theorem nest_depth_balance_witness :
    ((Rwd.try_acquire_read 2).pushes = (Rwd.try_acquire_read 2).pops)
    ∧ ((Rwd.try_acquire_read 0).pushes = (Rwd.try_acquire_read 0).pops + 1)
    ∧ ((Rwd.try_acquire_write 2).pushes = (Rwd.try_acquire_write 2).pops)
    ∧ ((Rwd.try_acquire_write 0).pushes
        = (Rwd.try_acquire_write 0).pops
          + (Rwd.release_write (Rwd.try_acquire_write 0).permit).pops) :=
  ⟨(nest_depth_balance.1 2).1 (by decide),
   (nest_depth_balance.1 0).2 (by decide),
   (nest_depth_balance.2.1 2).1 (by decide),
   nest_depth_balance.2.2.2.2.2.1 0 (by decide)⟩

/-- a store to one channel flag leaves the other channel flag unchanged. -/
theorem mcs_get_set_ne (s : MCS.LockState) (c c9 : MCS.LockChannel) (b : Bool)
    (h : c9 ≠ c) : MCS.get (MCS.set s c b) c9 = MCS.get s c9 := by
  cases c <;> cases c9
  · exact absurd rfl h
  · rfl
  · rfl
  · exact absurd rfl h

/-- a successful `try_lock` (or `lock`) produced the state with the
selected channel flag set, and found that flag clear. -/
theorem mcs_try_lock_some (s s1 : MCS.LockState) (c : MCS.LockChannel)
    (h : MCS.try_lock s c = some s1) : s1 = MCS.set s c true ∧ MCS.get s c = false := by
  rw [MCS.try_lock] at h
  by_cases hb : MCS.get s c = false
  · rw [if_pos hb] at h
    exact ⟨(Option.some_inj.mp h).symm, hb⟩
  · rw [if_neg hb] at h
    exact Option.noConfusion h

/-- C9: the dual-channel lock operations read and modify only the
selected channel: `try_lock` succeeds exactly when the selected channel
flag is clear whatever the other channel holds, and a successful
`try_lock`, a completed `lock`, and a guard drop leave the other channel
flag unchanged. -/
theorem mcs_channel_frame :
    (∀ (s : MCS.LockState) (c : MCS.LockChannel),
        ((MCS.try_lock s c).isSome = true) ↔ MCS.get s c = false)
    ∧ (∀ (s s1 : MCS.LockState) (c c9 : MCS.LockChannel), c9 ≠ c →
        MCS.try_lock s c = some s1 → MCS.get s1 c9 = MCS.get s c9)
    ∧ (∀ (s s1 : MCS.LockState) (c c9 : MCS.LockChannel), c9 ≠ c →
        MCS.lock s c = some s1 → MCS.get s1 c9 = MCS.get s c9)
    ∧ (∀ (s : MCS.LockState) (c c9 : MCS.LockChannel), c9 ≠ c →
        MCS.get (MCS.guard_drop s c) c9 = MCS.get s c9) := by
  refine ⟨?_, ?_, ?_, ?_⟩
  · intro s c
    rw [MCS.try_lock]
    by_cases hb : MCS.get s c = false <;> simp [hb]
  · intro s s1 c c9 hne h
    rw [(mcs_try_lock_some s s1 c h).1]
    exact mcs_get_set_ne s c c9 true hne
  · intro s s1 c c9 hne h
    have h9 : MCS.try_lock s c = some s1 := h
    rw [(mcs_try_lock_some s s1 c h9).1]
    exact mcs_get_set_ne s c c9 true hne
  · intro s c c9 hne
    exact mcs_get_set_ne s c c9 false hne

/-- C9 witness: the channel independence at a state whose other channel
is held: acquiring the normal channel succeeds while the interrupt
channel stays held, and dropping the normal channel leaves it held. -/
theorem mcs_channel_frame_witness :
    (((MCS.try_lock { normal := false, intr := true } MCS.LockChannel.Normal).isSome = true)
      ↔ MCS.get { normal := false, intr := true } MCS.LockChannel.Normal = false)
    ∧ MCS.get { normal := true, intr := true } MCS.LockChannel.Interrupt
      = MCS.get { normal := false, intr := true } MCS.LockChannel.Interrupt
    ∧ MCS.get (MCS.guard_drop { normal := true, intr := true } MCS.LockChannel.Normal)
        MCS.LockChannel.Interrupt
      = MCS.get { normal := true, intr := true } MCS.LockChannel.Interrupt :=
  ⟨mcs_channel_frame.1 { normal := false, intr := true } MCS.LockChannel.Normal,
   mcs_channel_frame.2.1 { normal := false, intr := true }
     { normal := true, intr := true } MCS.LockChannel.Normal MCS.LockChannel.Interrupt
     (by decide) (by decide),
   mcs_channel_frame.2.2.2 { normal := true, intr := true }
     MCS.LockChannel.Normal MCS.LockChannel.Interrupt (by decide)⟩

/-- C2 counterexample: with the queue holding a reader, then a writer,
then another reader, the claim predicts that the batch stops at the
writer, leaving the queue as the writer followed by the second reader;
the `retain` scan instead wakes and removes the second reader as well,
leaving only the writer. -/
theorem rwd_wake_next_not_contiguous_cx :
    Rwd.wake_next
        [{ req := Rwd.AcquireType.Read, queued := true },
         { req := Rwd.AcquireType.Write, queued := true },
         { req := Rwd.AcquireType.Read, queued := true }]
      = ([{ req := Rwd.AcquireType.Read, queued := true },
          { req := Rwd.AcquireType.Read, queued := true }],
         [{ req := Rwd.AcquireType.Write, queued := true }])
    ∧ ([{ req := Rwd.AcquireType.Write, queued := true }] : List Rwd.Waiter)
        ≠ [{ req := Rwd.AcquireType.Write, queued := true },
           { req := Rwd.AcquireType.Read, queued := true }] := by
  decide

/-- C2: the wake policy pops and wakes the head waiter; a writer or disk
head is woken alone, the tail untouched; a reader head additionally
wakes and removes every reader waiter anywhere in the remainder of the
queue, retaining the non-reader waiters in order regardless of how they
interleave with the readers (in both the three-tier and the two-tier
engine). -/
theorem wake_next_batched_reader_wake :
    (Rwd.wake_next ([] : List Rwd.Waiter) = ([], []))
    ∧ (∀ (h9 : Rwd.Waiter) (t : List Rwd.Waiter), h9.req = Rwd.AcquireType.Read →
        Rwd.wake_next (h9 :: t)
          = (h9 :: t.filter (fun w => decide (w.req = Rwd.AcquireType.Read)),
             t.filter (fun w => decide (¬ w.req = Rwd.AcquireType.Read))))
    ∧ (∀ (h9 : Rwd.Waiter) (t : List Rwd.Waiter), ¬ h9.req = Rwd.AcquireType.Read →
        Rwd.wake_next (h9 :: t) = ([h9], t))
    ∧ (Rw.wake_next ([] : List Rw.Waiter) = ([], []))
    ∧ (∀ (h9 : Rw.Waiter) (t : List Rw.Waiter), h9.req = Rw.AcquireType.Read →
        Rw.wake_next (h9 :: t)
          = (h9 :: t.filter (fun w => decide (w.req = Rw.AcquireType.Read)),
             t.filter (fun w => decide (¬ w.req = Rw.AcquireType.Read))))
    ∧ (∀ (h9 : Rw.Waiter) (t : List Rw.Waiter), ¬ h9.req = Rw.AcquireType.Read →
        Rw.wake_next (h9 :: t) = ([h9], t)) := by
  refine ⟨rfl, ?_, ?_, rfl, ?_, ?_⟩
  · intro h9 t hread
    simp [Rwd.wake_next, hread, Rwd.retain_wake_eq]
  · intro h9 t hread
    simp [Rwd.wake_next, hread]
  · intro h9 t hread
    simp [Rw.wake_next, hread, Rw.rw_retain_wake_eq]
  · intro h9 t hread
    simp [Rw.wake_next, hread]

/-- C2 witness: the policy applied to a sole reader head and to a writer
head followed by a reader. -/
theorem wake_next_batched_reader_wake_witness :
    Rwd.wake_next [{ req := Rwd.AcquireType.Read, queued := true }]
      = ([{ req := Rwd.AcquireType.Read, queued := true }], [])
    ∧ Rwd.wake_next
        [{ req := Rwd.AcquireType.Write, queued := true },
         { req := Rwd.AcquireType.Read, queued := true }]
      = ([{ req := Rwd.AcquireType.Write, queued := true }],
         [{ req := Rwd.AcquireType.Read, queued := true }]) :=
  ⟨wake_next_batched_reader_wake.2.1 { req := Rwd.AcquireType.Read, queued := true } [] rfl,
   wake_next_batched_reader_wake.2.2.1 { req := Rwd.AcquireType.Write, queued := true }
     [{ req := Rwd.AcquireType.Read, queued := true }] (by decide)⟩

/-- C3: at the failing input (a waiter requesting the read tier polled
while the permit word equals the writer bit), the loop in the three-tier
`poll_acquire` makes an attempt per iteration and never breaks, for any
iteration bound — the permit word cannot change while the loop holds the
queue lock, because every release takes that lock first.  The claim (and
the specification) require exactly one re-attempt followed by enqueue
and a not-ready report, as the two-tier `poll_acquire` implements. -/
theorem rwd_poll_loop_spins_unbounded :
    ∀ fuel : Nat, Rwd.poll_loop Rwd.AcquireType.Read 2 fuel = (fuel, none) := by
  intro fuel
  induction fuel with
  | zero => rfl
  | succ n ih =>
    simp [Rwd.poll_loop, Rwd.try_acquire_req, Rwd.try_acquire_read, Rwd.poll_break,
      Rwd.DISK, Rwd.WRITER, Rwd.READER, ih]

/-- C4 counterexample: with two outstanding readers the permit word is 8;
the claim predicts that the upgrade fails with the permit word
unmodified, but the reserve phase of `read_upgrade` succeeds and sets
the writer bit, changing the permit word to 10. -/
theorem read_upgrade_two_readers_reserves_cx :
    Rwd.read_upgrade_reserve Rwd.WRITER 8 = Except.ok 10 ∧ (10 : Nat) ≠ 8 := by
  decide

theorem rwd_taw_res (p : Nat) :
    (Rwd.try_acquire_write p).res = if p = 0 then .ok () else .error p := by
  rw [Rwd.try_acquire_write]
  by_cases h : p = 0 <;> simp [h]

theorem rwd_tad_res (p : Nat) :
    (Rwd.try_acquire_disk p).res = if p = 0 then .ok () else .error p := by
  rw [Rwd.try_acquire_disk]
  by_cases h : p = 0 <;> simp [h]

/-- C4: a read-based upgrade fails — returning the conflicting word and
leaving the permit unchanged, so the caller keeps the read guard — only
when the writer or disk bit is set at reserve time.  With a second
reader outstanding it does not fail: the reserve phase sets the target
bit, modifying the permit word, and the commit CAS cannot yet succeed,
so the upgrade spin-waits; once all other readers have released, the
commit CAS succeeds. -/
theorem read_upgrade_reserve_wait_commit :
    (∀ p t : Nat, ¬ p &&& 3 = 0 → Rwd.read_upgrade_reserve t p = .error p)
    ∧ (∀ (s : Rwd.St) (t : Nat), Rwd.Reachable s → s.upg = none → 2 ≤ s.readers →
        (t = Rwd.WRITER ∨ t = Rwd.DISK) →
        Rwd.read_upgrade_reserve t s.permit = .ok (s.permit + t)
        ∧ s.permit + t ≠ s.permit
        ∧ Rwd.read_upgrade_commit t (s.permit + t) = none)
    ∧ (∀ (s : Rwd.St) (t : Nat), Rwd.Reachable s → s.upg = some t → s.readers = 0 →
        Rwd.read_upgrade_commit t s.permit = some t) := by
  refine ⟨?_, ?_, ?_⟩
  · intro p t h
    rw [Rwd.rur_eq, if_neg h]
  · intro s t h hu hr ht
    have ht4 : t < 4 := by rcases ht with rfl | rfl <;> decide
    have ht0 : t ≠ 0 := by rcases ht with rfl | rfl <;> decide
    have h4t : (4 ||| t : Nat) = 4 + t := by
      have h9 := lor_of_lt 1 t ht4
      simpa using h9
    rcases Rwd.inv_reachable h with ⟨hu9, hw, hd, hp⟩ | ⟨hu9, hw, hd, hr9, hp⟩
      | ⟨hu9, hw, hd, hr9, hp⟩ | ⟨t9, hu9, ht9, hw, hd, hp⟩
    · have hb0 : s.permit &&& 3 = 0 := by
        rw [hp]
        simpa using land_three_of_lt s.readers 0 (by omega)
      refine ⟨?_, by omega, ?_⟩
      · rw [Rwd.rur_eq, if_pos hb0, hp, lor_of_lt s.readers t ht4]
      · rw [Rwd.ruc_eq, if_neg (by rw [h4t, hp]; omega)]
    · omega
    · omega
    · rw [hu] at hu9
      exact Option.noConfusion hu9
  · intro s t h hu hr
    rcases Rwd.inv_reachable h with ⟨hu9, hw, hd, hp⟩ | ⟨hu9, hw, hd, hr9, hp⟩
      | ⟨hu9, hw, hd, hr9, hp⟩ | ⟨t9, hu9, ht9, hw, hd, hp⟩
    · rw [hu] at hu9
      exact Option.noConfusion hu9
    · rw [hu] at hu9
      exact Option.noConfusion hu9
    · rw [hu] at hu9
      exact Option.noConfusion hu9
    · rw [hu] at hu9
      injection hu9 with he
      subst he
      have h4t : (4 ||| t : Nat) = 4 + t := by
        have h9 := lor_of_lt 1 t (by rcases ht9 with rfl | rfl <;> decide)
        simpa using h9
      rw [Rwd.ruc_eq, if_pos (by rw [h4t, hp, hr])]

/-- C4 witness: the three phases at concrete reachable states: failing
reserve at the sole-writer word, successful reserve with a pending
second reader from the two-reader state, and successful commit once the
other reader has released. -/
theorem read_upgrade_reserve_wait_commit_witness :
    Rwd.read_upgrade_reserve 2 2 = .error 2
    ∧ (Rwd.read_upgrade_reserve 2 8 = .ok 10
        ∧ (10 : Nat) ≠ 8
        ∧ Rwd.read_upgrade_commit 2 10 = none)
    ∧ Rwd.read_upgrade_commit 2 6 = some 2 :=
  ⟨read_upgrade_reserve_wait_commit.1 2 2 (by decide),
   read_upgrade_reserve_wait_commit.2.1
     { permit := 8, readers := 2, writer := false, disk := false, upg := none }
     2 reach_read2 rfl (by decide) (Or.inl rfl),
   read_upgrade_reserve_wait_commit.2.2
     { permit := 6, readers := 0, writer := false, disk := false, upg := some 2 }
     2 reach_upg rfl rfl⟩

/-- C6 counterexample: the two-tier failures observed at the permit
words 1 and 5 are the same unit value, although the observed words
differ — so the two-tier failure signal carries no permit word, against
the claim that every failing try-acquire carries the observed word. -/
theorem rw_failure_carries_no_word_cx :
    (Rw.try_acquire_write 1).res = (Rw.try_acquire_write 5).res
    ∧ (Rw.try_acquire_write 1).res.isOk = false
    ∧ (Rw.try_acquire_write 5).res.isOk = false
    ∧ (1 : Nat) ≠ 5 := by
  decide

/-- C6: every failing try-acquire returns an ordinary error value and
leaves the permit word unchanged (the transient reader-step increment
undone); in the three-tier engine the error carries the observed permit
word, while in the two-tier engine it is the bare unit value. -/
theorem try_acquire_failure_value_policy :
    (∀ p, (Rwd.try_acquire_read p).res.isOk = false →
        (Rwd.try_acquire_read p).res = .error p ∧ (Rwd.try_acquire_read p).permit = p)
    ∧ (∀ p, (Rwd.try_acquire_write p).res.isOk = false →
        (Rwd.try_acquire_write p).res = .error p ∧ (Rwd.try_acquire_write p).permit = p)
    ∧ (∀ p, (Rwd.try_acquire_disk p).res.isOk = false →
        (Rwd.try_acquire_disk p).res = .error p ∧ (Rwd.try_acquire_disk p).permit = p)
    ∧ (∀ p, (Rw.try_acquire_read p).res.isOk = false →
        (Rw.try_acquire_read p).res = .error () ∧ (Rw.try_acquire_read p).permit = p)
    ∧ (∀ p, (Rw.try_acquire_write p).res.isOk = false →
        (Rw.try_acquire_write p).res = .error () ∧ (Rw.try_acquire_write p).permit = p) := by
  refine ⟨?_, ?_, ?_, ?_, ?_⟩
  · intro p h
    rw [Rwd.tar_isOk, decide_eq_false_iff_not] at h
    exact ⟨Rwd.tar_res_fail p h, by rw [Rwd.tar_permit, if_neg h]⟩
  · intro p h
    rw [Rwd.taw_isOk, decide_eq_false_iff_not] at h
    exact ⟨by rw [rwd_taw_res, if_neg h], by rw [Rwd.taw_permit, if_neg h]⟩
  · intro p h
    rw [Rwd.tad_isOk, decide_eq_false_iff_not] at h
    exact ⟨by rw [rwd_tad_res, if_neg h], by rw [Rwd.tad_permit, if_neg h]⟩
  · intro p h
    by_cases hb : p % 2 = 0
    · rw [Rw.rw_tar_res, if_pos hb] at h
      exact Bool.noConfusion h
    · exact ⟨by rw [Rw.rw_tar_res, if_neg hb], by rw [Rw.rw_tar_permit, if_neg hb]⟩
  · intro p h
    by_cases hb : p = 0
    · rw [Rw.rw_taw_res, if_pos hb] at h
      exact Bool.noConfusion h
    · exact ⟨by rw [Rw.rw_taw_res, if_neg hb], by rw [Rw.rw_taw_permit, if_neg hb]⟩

/-- C6 witness: the failure policy at concrete conflicting permit
words for each of the five try-acquire operations. -/
theorem try_acquire_failure_value_policy_witness :
    ((Rwd.try_acquire_read 2).res = .error 2 ∧ (Rwd.try_acquire_read 2).permit = 2)
    ∧ ((Rwd.try_acquire_write 3).res = .error 3 ∧ (Rwd.try_acquire_write 3).permit = 3)
    ∧ ((Rwd.try_acquire_disk 3).res = .error 3 ∧ (Rwd.try_acquire_disk 3).permit = 3)
    ∧ ((Rw.try_acquire_read 1).res = .error () ∧ (Rw.try_acquire_read 1).permit = 1)
    ∧ ((Rw.try_acquire_write 1).res = .error () ∧ (Rw.try_acquire_write 1).permit = 1) :=
  ⟨try_acquire_failure_value_policy.1 2 (by decide),
   try_acquire_failure_value_policy.2.1 3 (by decide),
   try_acquire_failure_value_policy.2.2.1 3 (by decide),
   try_acquire_failure_value_policy.2.2.2.1 1 (by decide),
   try_acquire_failure_value_policy.2.2.2.2 1 (by decide)⟩

end KernelSync
